import Mathlib

/-!
Verification of the EPO BDDS Go client (package `bdds`).

This file gives a shallow embedding of the client's resilience layer —
error taxonomy (`errors.go`), OAuth2 token lifecycle, retry orchestrator,
response mapping of the resource operations (`types.go`), and the
progress-observing stream (`utils.go`) — and proves the spec's testable
properties about it.  Time is modelled as seconds (`Int`); the Go zero
`time.Time` is modelled as `0`; HTTP responses delivered by the generated
transport bindings are modelled as explicit input values (status code,
raw body, decoded payload).
-/

namespace EpoBdds

/-- Error values produced by the client: the typed errors of `errors.go`
(`AuthError`, `NotFoundError`) plus the untyped errors produced with
`fmt.Errorf` — `generic` for a plain message, `wrap` for
`fmt.Errorf ("...: %w", err)` wrapping. -/
inductive GoErr where
  | auth (statusCode : Int) (message : String)
  | notFound (resource : String) (id : String)
  | generic (msg : String)
  | wrap (msg : String) (inner : GoErr)
deriving DecidableEq

/-- Go type assertion `err.(*AuthError)` combined with
`authErr.StatusCode == 401` (types.go, `retryableRequest`).  It matches a
bare `AuthError` value only: a wrapped one (`fmt.Errorf` with `%w`) or any
other kind does not satisfy the assertion. -/
def isAuthError401 (e : GoErr) : Bool :=
  match e with
  | .auth statusCode _ => statusCode == 401
  | _ => false

/-- Message of the generic error `fmt.Errorf ("unexpected status %d: %s",
status, body)` used by all three resource operations in types.go. -/
def unexpectedStatusMsg (statusCode : Int) (body : String) : String :=
  "unexpected status " ++ toString statusCode ++ ": " ++ body

/-- Message of the terminal wrap `fmt.Errorf ("failed after %d retries: %w",
c.config.MaxRetries, lastErr)` in `retryableRequest` (types.go). -/
def failedAfterMsg (maxRetries : Nat) : String :=
  "failed after " ++ toString maxRetries ++ " retries"

/-- OAuth2 token TTL (`tokenTTL = time.Hour` in types.go), in seconds. -/
def tokenTTL : Int := 3600

/-- Refresh buffer (`tokenRefreshBuffer = 5 * time.Minute` in types.go),
in seconds. -/
def tokenRefreshBuffer : Int := 300

/-- The mutable token state of a `Client` (fields `token`, `tokenExpiry`
of the `Client` struct in types.go).  `tokenExpiry = 0` models the Go zero
`time.Time`. -/
structure TokenState where
  token : String
  tokenExpiry : Int
deriving DecidableEq

/-- The state written by `retryableRequest` when it force-clears the
cached credentials: `c.token = ""` and `c.tokenExpiry = time.Time\x7b\x7d`. -/
def clearedToken : TokenState :=
  { token := "", tokenExpiry := 0 }

/-- Client configuration (`Config` struct in types.go). -/
structure Config where
  username : String
  password : String
  baseURL : String
  userAgent : String
  maxRetries : Int
  retryDelay : Int
  timeout : Int
deriving DecidableEq

/-- `DefaultConfig` (types.go): the documented defaults; the credential
fields keep their Go zero value. -/
def DefaultConfig : Config :=
  { username := ""
    password := ""
    baseURL := "https://publication-bdds.apps.epo.org"
    userAgent := "PatentDev/BDDS/1.0"
    maxRetries := 3
    retryDelay := 1
    timeout := 30 }

/-- Configuration produced by `NewClient` (types.go): a `nil` config is
replaced by `DefaultConfig`, and each zero-valued field of a supplied
config is overwritten with the corresponding `DefaultConfig` field. -/
def newClientConfig (config : Option Config) : Config :=
  match config with
  | none => DefaultConfig
  | some c =>
      { c with
        baseURL := if c.baseURL = "" then DefaultConfig.baseURL else c.baseURL
        userAgent := if c.userAgent = "" then DefaultConfig.userAgent else c.userAgent
        maxRetries := if c.maxRetries = 0 then DefaultConfig.maxRetries else c.maxRetries
        retryDelay := if c.retryDelay = 0 then DefaultConfig.retryDelay else c.retryDelay
        timeout := if c.timeout = 0 then DefaultConfig.timeout else c.timeout }

/-- Decoded OAuth2 token payload (`generated.TokenResponse`, field
`AccessToken`). -/
structure TokenResponse where
  accessToken : String
deriving DecidableEq

instance {ε α : Type} [DecidableEq ε] [DecidableEq α] : DecidableEq (Except ε α) :=
  fun x y =>
    match x, y with
    | .error a, .error b =>
        if h : a = b then .isTrue (by rw [h]) else .isFalse (by simp [h])
    | .error _, .ok _ => .isFalse (by simp)
    | .ok _, .error _ => .isFalse (by simp)
    | .ok a, .ok b =>
        if h : a = b then .isTrue (by rw [h]) else .isFalse (by simp [h])

/-- Modelled from the spec: the outcome of the single HTTP exchange that
`authenticate` performs against the fixed identity endpoint (the HTTP
plumbing `http.NewRequestWithContext` / `httpClient.Do` is library code
not in this repository).  Either the transport fails, or a response
arrives with a status code, its raw body, and — relevant on status 200 —
the result of decoding the body as a token payload (`Except.error` when
the body is malformed JSON). -/
inductive AuthExchange where
  | transportErr (msg : String)
  | httpResp (statusCode : Int) (body : String) (parsed : Except String TokenResponse)
deriving DecidableEq

/-- `authenticate` (types.go): performs the OAuth2 password-grant
exchange.  On a non-200 response it returns an `AuthError` carrying the
status and raw body; on 200 it decodes the body and, on success, stores
`token = accessToken` and `tokenExpiry = now + tokenTTL`; every failure
path leaves the token state unchanged.  Returns (result, new state). -/
def authenticate (now : Int) (st : TokenState) (exchange : AuthExchange) :
    Except GoErr Unit × TokenState :=
  match exchange with
  | .transportErr msg => (.error (.wrap "auth request failed" (.generic msg)), st)
  | .httpResp statusCode body parsed =>
      if statusCode ≠ 200 then
        (.error (.auth statusCode body), st)
      else
        match parsed with
        | .error msg =>
            (.error (.wrap "failed to parse token response" (.generic msg)), st)
        | .ok tokenResp =>
            (.ok (), { token := tokenResp.accessToken, tokenExpiry := now + tokenTTL })

/-- The token-validity invariant of the spec data model: a non-empty token
whose expiry is strictly beyond `now` plus the refresh buffer.  This is
exactly the freshness test `c.token != "" &&
time.Now().Add(tokenRefreshBuffer).Before(c.tokenExpiry)` of
`ensureValidToken`. -/
def tokenValidInv (now : Int) (st : TokenState) : Prop :=
  st.token ≠ "" ∧ now + tokenRefreshBuffer < st.tokenExpiry

instance (now : Int) (st : TokenState) : Decidable (tokenValidInv now st) := by
  unfold tokenValidInv; infer_instance

/-- `ensureValidToken` (types.go): a no-op when no credentials are
configured or the cached token is still fresh; otherwise delegates to
`authenticate`.  The final `Nat` counts how many times `authenticate` was
invoked. -/
def ensureValidToken (cfg : Config) (now : Int) (st : TokenState)
    (exchange : AuthExchange) : (Except GoErr Unit × TokenState) × Nat :=
  if cfg.username = "" ∨ cfg.password = "" then
    ((.ok (), st), 0)
  else if tokenValidInv now st then
    ((.ok (), st), 0)
  else
    (authenticate now st exchange, 1)

/-- The two request headers `authRequestEditor` touches on an outgoing
`http.Request`; `none` means the header is absent. -/
structure GoRequest where
  authorization : Option String
  userAgent : Option String
deriving DecidableEq

/-- `authRequestEditor` (types.go): when both credentials are configured
it runs `ensureValidToken` — propagating its failure wrapped as
`authentication failed: %w` — and sets `Authorization: Bearer <token>`;
in all successful cases it sets the `User-Agent` header.  The final `Nat`
counts `authenticate` invocations. -/
def authRequestEditor (cfg : Config) (now : Int) (st : TokenState)
    (exchange : AuthExchange) (req : GoRequest) :
    (Except GoErr GoRequest × TokenState) × Nat :=
  if cfg.username ≠ "" ∧ cfg.password ≠ "" then
    match ensureValidToken cfg now st exchange with
    | ((.error e, st1), n) => ((.error (.wrap "authentication failed" e), st1), n)
    | ((.ok _, st1), n) =>
        ((.ok { req with
                  authorization := some ("Bearer " ++ st1.token)
                  userAgent := some cfg.userAgent }, st1), n)
  else
    ((.ok { req with userAgent := some cfg.userAgent }, st), 0)

/-- Observable outcome of one `retryableRequest` run: the returned error
(`none` = success), the number of invocations of the wrapped operation,
the sleeps performed between attempts (in seconds, in order), and the
final token state. -/
structure RetryOutcome where
  result : Option GoErr
  calls : Nat
  sleeps : List Int
  final : TokenState
deriving DecidableEq

/-- Body of the `for attempt := 0; attempt <= MaxRetries; attempt++` loop
of `retryableRequest` (types.go), written as structural recursion on a
fuel argument; the entry point `retryableRequest` supplies
`fuel = maxRetries + 1`, so fuel runs out exactly when the loop condition
`attempt <= MaxRetries` fails.  The wrapped operation `fn` is modelled by
its observable behaviour at each invocation: given the invocation index
and the current token state it yields `none` for success or `some e` for
an error, plus the state it leaves behind.  On an error that is a bare
`AuthError` with status 401 — Go type assertion `err.(*AuthError)` — with
retries remaining, the cached token and expiry are cleared; with retries
remaining the loop then sleeps `RetryDelay * (attempt+1)` seconds; after
the last attempt the last error is returned wrapped with
`failed after <MaxRetries> retries`. -/
def retryAux (maxRetries : Nat) (retryDelay : Int)
    (fn : Nat → TokenState → Option GoErr × TokenState) :
    Nat → Nat → TokenState → RetryOutcome
  | 0, _, st => { result := none, calls := 0, sleeps := [], final := st }
  | fuel + 1, attempt, st =>
      match fn attempt st with
      | (none, st1) => { result := none, calls := 1, sleeps := [], final := st1 }
      | (some e, st1) =>
          let st2 := if isAuthError401 e ∧ attempt < maxRetries then clearedToken else st1
          if attempt < maxRetries then
            let rest := retryAux maxRetries retryDelay fn fuel (attempt + 1) st2
            { result := rest.result
              calls := rest.calls + 1
              sleeps := retryDelay * ((attempt : Int) + 1) :: rest.sleeps
              final := rest.final }
          else
            { result := some (.wrap (failedAfterMsg maxRetries) e)
              calls := 1
              sleeps := []
              final := st2 }

/-- `retryableRequest` (types.go): runs the wrapped operation with
attempts `0 .. maxRetries`. -/
def retryableRequest (maxRetries : Nat) (retryDelay : Int)
    (fn : Nat → TokenState → Option GoErr × TokenState) (st : TokenState) :
    RetryOutcome :=
  retryAux maxRetries retryDelay fn (maxRetries + 1) 0 st

/-- Lifts a state-independent attempt behaviour (result of the operation
at its i-th invocation) into the stateful form `retryAux` consumes. -/
def statelessFn (seq : Nat → Option GoErr) :
    Nat → TokenState → Option GoErr × TokenState :=
  fun i st => (seq i, st)

/-- Domain product record (`Product` in the models file). -/
structure Product where
  id : Int
  name : String
  description : String
deriving DecidableEq

/-- Domain file record (`DeliveryFile` in the models file); timestamps in
seconds. -/
structure DeliveryFile where
  fileID : Int
  fileName : String
  fileSize : String
  fileChecksum : String
  filePublicationDatetime : Int
deriving DecidableEq

/-- Domain delivery record (`Delivery` in the models file). -/
structure Delivery where
  deliveryID : Int
  deliveryName : String
  deliveryPublicationDatetime : Int
  deliveryExpiryDatetime : Option Int
  files : List DeliveryFile
deriving DecidableEq

/-- Domain product-with-deliveries record (`ProductWithDeliveries`). -/
structure ProductWithDeliveries where
  id : Int
  name : String
  description : String
  deliveries : List Delivery
deriving DecidableEq

/-- Generated-binding product summary (`generated` package response item
for the list-products endpoint): id, name, description. -/
structure GenProductSummary where
  id : Int
  name : String
  description : String
deriving DecidableEq

/-- Modelled from the spec: the parsed response the generated
`ListProductsWithResponse` binding hands back — status code, raw body,
and the decoded JSON payload (`none` when the body is empty or missing,
mirroring a nil `JSON200`). -/
structure GenListResponse where
  statusCode : Int
  body : String
  json200 : Option (List GenProductSummary)
deriving DecidableEq

/-- Generated-binding file record of the get-product endpoint. -/
structure GenFile where
  fileId : Int
  fileName : String
  fileSize : String
  fileChecksum : String
  filePublicationDatetime : Int
deriving DecidableEq

/-- Generated-binding delivery record of the get-product endpoint. -/
structure GenDelivery where
  deliveryId : Int
  deliveryName : String
  deliveryPublicationDatetime : Int
  deliveryExpiryDatetime : Option Int
  files : List GenFile
deriving DecidableEq

/-- Generated-binding product record of the get-product endpoint. -/
structure GenProduct where
  id : Int
  name : String
  description : String
  deliveries : List GenDelivery
deriving DecidableEq

/-- Modelled from the spec: the parsed response the generated
`GetProductWithResponse` binding hands back (`none` for a nil
`JSON200`). -/
structure GenProductResponse where
  statusCode : Int
  body : String
  json200 : Option GenProduct
deriving DecidableEq

/-- Field-by-field copy of a generated file record into the domain
record, as in the inner loop of `GetProduct` (types.go). -/
def convertFile (f : GenFile) : DeliveryFile :=
  { fileID := f.fileId
    fileName := f.fileName
    fileSize := f.fileSize
    fileChecksum := f.fileChecksum
    filePublicationDatetime := f.filePublicationDatetime }

/-- Field-by-field copy of a generated delivery record into the domain
record, as in the loop of `GetProduct` (types.go). -/
def convertDelivery (d : GenDelivery) : Delivery :=
  { deliveryID := d.deliveryId
    deliveryName := d.deliveryName
    deliveryPublicationDatetime := d.deliveryPublicationDatetime
    deliveryExpiryDatetime := d.deliveryExpiryDatetime
    files := d.files.map convertFile }

/-- Conversion of the full generated product into
`ProductWithDeliveries`, as built by `GetProduct` (types.go). -/
def convertProduct (p : GenProduct) : ProductWithDeliveries :=
  { id := p.id
    name := p.name
    description := p.description
    deliveries := p.deliveries.map convertDelivery }

/-- One attempt of `ListProducts` (types.go), given the response the
generated binding delivered: any non-200 status yields the generic
`unexpected status` error; a 200 with nil payload yields the
`empty response body` error; otherwise the items are copied into domain
records. -/
def listProductsAttempt (resp : GenListResponse) : Except GoErr (List Product) :=
  if resp.statusCode ≠ 200 then
    .error (.generic (unexpectedStatusMsg resp.statusCode resp.body))
  else
    match resp.json200 with
    | none => .error (.generic "empty response body")
    | some ps => .ok (ps.map (fun p => { id := p.id, name := p.name, description := p.description }))

/-- One attempt of `GetProduct` (types.go), given the response the
generated binding delivered: 404 yields `NotFoundError` with resource
"product" and the stringified id; any other non-200 status yields the
generic `unexpected status` error; a 200 with nil payload yields the
`empty response body` error; otherwise the payload is copied into the
domain record. -/
def getProductAttempt (productID : Int) (resp : GenProductResponse) :
    Except GoErr ProductWithDeliveries :=
  if resp.statusCode = 404 then
    .error (.notFound "product" (toString productID))
  else if resp.statusCode ≠ 200 then
    .error (.generic (unexpectedStatusMsg resp.statusCode resp.body))
  else
    match resp.json200 with
    | none => .error (.generic "empty response body")
    | some p => .ok (convertProduct p)

/-- Go `strings.EqualFold` restricted to the ASCII range: the two strings
are compared character-wise after case folding (Go folds by Unicode
simple case folding, which on ASCII coincides with lower-casing). -/
def strEqualFold (s t : String) : Bool :=
  s.data.map Char.toLower == t.data.map Char.toLower

/-- `GetProductByName` (types.go) after the `ListProducts` call
succeeded with `products`: linear scan returning the first product whose
name matches the query under `strings.EqualFold`, else a
`NotFoundError` carrying resource "product" and the queried name. -/
def getProductByName (products : List Product) (name : String) :
    Except GoErr Product :=
  match products.find? (fun p => strEqualFold p.name name) with
  | some p => .ok p
  | none => .error (.notFound "product" name)

/-- The scan of `GetLatestDelivery` (types.go): fold over the remaining
deliveries keeping the current latest, replacing it only on a strictly
later publication timestamp (`time.Time.After`), so ties keep the
earlier delivery. -/
def latestOf (ds : List Delivery) (first : Delivery) : Delivery :=
  ds.foldl
    (fun latest d =>
      if latest.deliveryPublicationDatetime < d.deliveryPublicationDatetime then d
      else latest)
    first

/-- `GetLatestDelivery` (types.go) after the `GetProduct` call succeeded
with `product`: a product with zero deliveries yields a `NotFoundError`;
otherwise the delivery with the latest publication timestamp is
returned. -/
def getLatestDelivery (productID : Int) (product : ProductWithDeliveries) :
    Except GoErr Delivery :=
  match product.deliveries with
  | [] => .error (.notFound "delivery"
      ("product " ++ toString productID ++ " has no deliveries"))
  | first :: rest => .ok (latestOf rest first)

/-- Cumulative byte counter of `progressReader` (utils.go): starting from
`cur`, each read of `n` bytes advances the counter to `cur + n` and that
value is reported. -/
def cumFrom (cur : Int) : List Nat → List Int
  | [] => []
  | n :: ns => (cur + (n : Int)) :: cumFrom (cur + (n : Int)) ns

/-- The sequence of `(bytesWritten, totalBytes)` callback invocations
`progressReader.Read` (utils.go) performs when the underlying reads
return the byte counts `chunks` in order: each read adds its count to
`pr.current` and invokes the callback with `(pr.current, pr.total)`.
`total` is `resp.ContentLength` as set by `DownloadFileWithProgress`
(types.go). -/
def progressCalls (total : Int) (chunks : List Nat) : List (Int × Int) :=
  (cumFrom 0 chunks).map (fun c => (c, total))

/-- Test fixture: a product with three deliveries whose publication
timestamps are 100, 200, 200 — the maximum attained twice, first by the
delivery with id 2. -/
def productDupMax : ProductWithDeliveries :=
  { id := 3
    name := "p"
    description := "d"
    deliveries := [
      { deliveryID := 1, deliveryName := "a", deliveryPublicationDatetime := 100,
        deliveryExpiryDatetime := none, files := [] },
      { deliveryID := 2, deliveryName := "b", deliveryPublicationDatetime := 200,
        deliveryExpiryDatetime := some 5, files := [] },
      { deliveryID := 3, deliveryName := "c", deliveryPublicationDatetime := 200,
        deliveryExpiryDatetime := none, files := [] }] }

/-- Test fixture: a product with no deliveries. -/
def productNoDeliveries : ProductWithDeliveries :=
  { id := 5, name := "p", description := "d", deliveries := [] }

/-- Test fixture: a two-product listing containing "EP DocDB front
file". -/
def listingEP : List Product :=
  [{ id := 3, name := "EP DocDB front file", description := "biblio" },
   { id := 4, name := "EP full-text data - front file", description := "ft" }]

/-- Test fixture: a configuration with empty base URL and user agent,
zero max retries, and non-zero retry delay and timeout. -/
def cfgZeroFields : Config :=
  { username := "u"
    password := "p"
    baseURL := ""
    userAgent := ""
    maxRetries := 0
    retryDelay := 7
    timeout := 90 }

/-! Step equations for the retry loop. -/

theorem retryAux_zero (maxRetries : Nat) (d : Int)
    (fn : Nat → TokenState → Option GoErr × TokenState) (a : Nat) (st : TokenState) :
    retryAux maxRetries d fn 0 a st = { result := none, calls := 0, sleeps := [], final := st } :=
  rfl

theorem retryAux_succ_success (maxRetries : Nat) (d : Int)
    {fn : Nat → TokenState → Option GoErr × TokenState} {a : Nat} {st st1 : TokenState}
    (fuel : Nat) (h : fn a st = (none, st1)) :
    retryAux maxRetries d fn (fuel + 1) a st =
      { result := none, calls := 1, sleeps := [], final := st1 } := by
  simp [retryAux, h]

theorem retryAux_succ_fail_lt (maxRetries : Nat) (d : Int)
    {fn : Nat → TokenState → Option GoErr × TokenState} {a : Nat} {st st1 : TokenState}
    {e : GoErr} (fuel : Nat) (h : fn a st = (some e, st1)) (hlt : a < maxRetries) :
    retryAux maxRetries d fn (fuel + 1) a st =
      { result := (retryAux maxRetries d fn fuel (a + 1)
            (if isAuthError401 e then clearedToken else st1)).result
        calls := (retryAux maxRetries d fn fuel (a + 1)
            (if isAuthError401 e then clearedToken else st1)).calls + 1
        sleeps := d * ((a : Int) + 1) :: (retryAux maxRetries d fn fuel (a + 1)
            (if isAuthError401 e then clearedToken else st1)).sleeps
        final := (retryAux maxRetries d fn fuel (a + 1)
            (if isAuthError401 e then clearedToken else st1)).final } := by
  simp [retryAux, h, hlt]

theorem retryAux_succ_fail_last (maxRetries : Nat) (d : Int)
    {fn : Nat → TokenState → Option GoErr × TokenState} {a : Nat} {st st1 : TokenState}
    {e : GoErr} (fuel : Nat) (h : fn a st = (some e, st1)) (hge : ¬ a < maxRetries) :
    retryAux maxRetries d fn (fuel + 1) a st =
      { result := some (.wrap (failedAfterMsg maxRetries) e)
        calls := 1
        sleeps := []
        final := st1 } := by
  simp [retryAux, h, hge]

/-! Behaviour lemmas for the retry loop. -/

theorem retryAux_calls_le (maxRetries : Nat) (d : Int)
    (fn : Nat → TokenState → Option GoErr × TokenState) :
    ∀ fuel a st, (retryAux maxRetries d fn fuel a st).calls ≤ fuel := by
  intro fuel
  induction fuel with
  | zero => intro a st; simp [retryAux_zero]
  | succ n ih =>
      intro a st
      rcases hfn : fn a st with ⟨err, st1⟩
      cases err with
      | none =>
          rw [retryAux_succ_success maxRetries d n hfn]
          show 1 ≤ n + 1
          omega
      | some e =>
          by_cases hlt : a < maxRetries
          · rw [retryAux_succ_fail_lt maxRetries d n hfn hlt]
            exact Nat.succ_le_succ (ih (a + 1) _)
          · rw [retryAux_succ_fail_last maxRetries d n hfn hlt]
            show 1 ≤ n + 1
            omega

theorem retryAux_calls_pos (maxRetries : Nat) (d : Int)
    (fn : Nat → TokenState → Option GoErr × TokenState) :
    ∀ fuel a st, 1 ≤ fuel → 1 ≤ (retryAux maxRetries d fn fuel a st).calls := by
  intro fuel a st hfuel
  match fuel, hfuel with
  | n + 1, _ =>
      rcases hfn : fn a st with ⟨err, st1⟩
      cases err with
      | none =>
          rw [retryAux_succ_success maxRetries d n hfn]
      | some e =>
          by_cases hlt : a < maxRetries
          · rw [retryAux_succ_fail_lt maxRetries d n hfn hlt]
            show _ + 1 ≥ 1
            omega
          · rw [retryAux_succ_fail_last maxRetries d n hfn hlt]

theorem retryAux_sleeps (maxRetries : Nat) (d : Int)
    (fn : Nat → TokenState → Option GoErr × TokenState) :
    ∀ fuel a st, maxRetries + 1 ≤ a + fuel →
      (retryAux maxRetries d fn fuel a st).sleeps =
        (List.range ((retryAux maxRetries d fn fuel a st).calls - 1)).map
          (fun i : Nat => d * ((a : Int) + (i : Int) + 1)) := by
  intro fuel
  induction fuel with
  | zero => intro a st hinv; simp [retryAux_zero]
  | succ n ih =>
      intro a st hinv
      rcases hfn : fn a st with ⟨err, st1⟩
      cases err with
      | none =>
          rw [retryAux_succ_success maxRetries d n hfn]
          simp
      | some e =>
          by_cases hlt : a < maxRetries
          · rw [retryAux_succ_fail_lt maxRetries d n hfn hlt]
            have hn : 1 ≤ n := by omega
            have hpos : 1 ≤ (retryAux maxRetries d fn n (a + 1)
                (if isAuthError401 e then clearedToken else st1)).calls :=
              retryAux_calls_pos maxRetries d fn n (a + 1) _ hn
            obtain ⟨k, hk⟩ :
                ∃ k, (retryAux maxRetries d fn n (a + 1)
                  (if isAuthError401 e then clearedToken else st1)).calls = k + 1 :=
              ⟨_ , (Nat.succ_pred_eq_of_pos hpos).symm⟩
            have htail := ih (a + 1) (if isAuthError401 e then clearedToken else st1)
              (by omega)
            dsimp only
            rw [htail, hk, Nat.add_sub_cancel, Nat.add_sub_cancel,
              List.range_succ_eq_map, List.map_cons, List.map_map]
            congr 1
            apply List.map_congr_left
            intro i _
            simp only [Function.comp_apply]
            push_cast
            ring
          · rw [retryAux_succ_fail_last maxRetries d n hfn hlt]
            simp

theorem retryAux_first_success (maxRetries : Nat) (d : Int) (seq : Nat → Option GoErr) :
    ∀ fuel a st k, a ≤ k → k ≤ maxRetries → k < a + fuel → seq k = none →
      (∀ i, a ≤ i → i < k → seq i ≠ none) →
      (retryAux maxRetries d (statelessFn seq) fuel a st).result = none ∧
      (retryAux maxRetries d (statelessFn seq) fuel a st).calls = k - a + 1 := by
  intro fuel
  induction fuel with
  | zero => intro a st k hak hkm hkf hseq hfail; omega
  | succ n ih =>
      intro a st k hak hkm hkf hseq hfail
      by_cases hek : a = k
      · have hfn : statelessFn seq a st = (none, st) := by
          simp [statelessFn, hek, hseq]
        rw [retryAux_succ_success maxRetries d n hfn]
        constructor
        · rfl
        · show 1 = k - a + 1
          omega
      · have hax : a < k := by omega
        have hne : seq a ≠ none := hfail a (Nat.le_refl a) hax
        rcases hsa : seq a with _ | e
        · exact absurd hsa hne
        · have hfn : statelessFn seq a st = (some e, st) := by simp [statelessFn, hsa]
          have hlt : a < maxRetries := by omega
          rw [retryAux_succ_fail_lt maxRetries d n hfn hlt]
          have := ih (a + 1) (if isAuthError401 e then clearedToken else st) k
            (by omega) hkm (by omega) hseq
            (fun i h1 h2 => hfail i (by omega) h2)
          refine ⟨this.1, ?_⟩
          have h2 := this.2
          dsimp only
          omega

theorem retryAux_all_fail (maxRetries : Nat) (d : Int) (seq : Nat → Option GoErr) :
    ∀ fuel a st, a + fuel = maxRetries + 1 → a ≤ maxRetries →
      (∀ i, a ≤ i → i ≤ maxRetries → seq i ≠ none) →
      ∃ e, seq maxRetries = some e ∧
        (retryAux maxRetries d (statelessFn seq) fuel a st).result =
          some (.wrap (failedAfterMsg maxRetries) e) ∧
        (retryAux maxRetries d (statelessFn seq) fuel a st).calls = fuel := by
  intro fuel
  induction fuel with
  | zero => intro a st hinv ham hfail; omega
  | succ n ih =>
      intro a st hinv ham hfail
      have hne : seq a ≠ none := hfail a (Nat.le_refl a) ham
      rcases hsa : seq a with _ | e
      · exact absurd hsa hne
      · have hfn : statelessFn seq a st = (some e, st) := by simp [statelessFn, hsa]
        by_cases hlt : a < maxRetries
        · rw [retryAux_succ_fail_lt maxRetries d n hfn hlt]
          obtain ⟨e1, he1, hres, hcalls⟩ := ih (a + 1)
            (if isAuthError401 e then clearedToken else st)
            (by omega) (by omega)
            (fun i h1 h2 => hfail i (by omega) h2)
          refine ⟨e1, he1, hres, ?_⟩
          show _ + 1 = n + 1
          omega
        · have hamr : a = maxRetries := by omega
          rw [retryAux_succ_fail_last maxRetries d n hfn hlt]
          refine ⟨e, by rw [← hamr]; exact hsa, rfl, ?_⟩
          show 1 = n + 1
          omega

theorem retryAux_min_calls (maxRetries : Nat) (d : Int) (seq : Nat → Option GoErr) :
    ∀ n fuel a st, n < fuel → a + n ≤ maxRetries →
      (∀ i, a ≤ i → i < a + n → seq i ≠ none) →
      n + 1 ≤ (retryAux maxRetries d (statelessFn seq) fuel a st).calls := by
  intro n
  induction n with
  | zero =>
      intro fuel a st hf ham hfail
      exact retryAux_calls_pos maxRetries d (statelessFn seq) fuel a st (by omega)
  | succ m ih =>
      intro fuel a st hf ham hfail
      match fuel, hf with
      | f + 1, _ =>
          have hne : seq a ≠ none := hfail a (Nat.le_refl a) (by omega)
          rcases hsa : seq a with _ | e
          · exact absurd hsa hne
          · have hfn : statelessFn seq a st = (some e, st) := by simp [statelessFn, hsa]
            have hlt : a < maxRetries := by omega
            rw [retryAux_succ_fail_lt maxRetries d f hfn hlt]
            have := ih f (a + 1) (if isAuthError401 e then clearedToken else st)
              (by omega) (by omega)
              (fun i h1 h2 => hfail i (by omega) (by omega))
            show m + 1 + 1 ≤ _ + 1
            omega

/-! Lemmas about the latest-delivery scan. -/

theorem latestOf_cons (ds : List Delivery) (first d : Delivery) :
    latestOf (d :: ds) first =
      latestOf ds
        (if first.deliveryPublicationDatetime < d.deliveryPublicationDatetime then d
         else first) :=
  rfl

theorem latestOf_le (ds : List Delivery) :
    ∀ first x, x ∈ first :: ds →
      x.deliveryPublicationDatetime ≤ (latestOf ds first).deliveryPublicationDatetime := by
  induction ds with
  | nil =>
      intro first x hx
      rcases List.mem_singleton.mp hx with rfl
      exact le_refl _
  | cons d ds ih =>
      intro first x hx
      rw [latestOf_cons]
      have hfirst : first.deliveryPublicationDatetime ≤
          (if first.deliveryPublicationDatetime < d.deliveryPublicationDatetime then d
           else first).deliveryPublicationDatetime := by
        split <;> omega
      have hd : d.deliveryPublicationDatetime ≤
          (if first.deliveryPublicationDatetime < d.deliveryPublicationDatetime then d
           else first).deliveryPublicationDatetime := by
        split <;> omega
      have hacc := ih
        (if first.deliveryPublicationDatetime < d.deliveryPublicationDatetime then d
         else first)
        (if first.deliveryPublicationDatetime < d.deliveryPublicationDatetime then d
         else first)
        (List.mem_cons_self _ _)
      rcases List.mem_cons.mp hx with rfl | hx1
      · exact le_trans hfirst hacc
      · rcases List.mem_cons.mp hx1 with rfl | hx2
        · exact le_trans hd hacc
        · exact ih _ x (List.mem_cons_of_mem _ hx2)

theorem latestOf_decomp (ds : List Delivery) :
    ∀ first, ∃ l1 l2,
      first :: ds = l1 ++ (latestOf ds first) :: l2 ∧
      (∀ x ∈ l1, x.deliveryPublicationDatetime <
        (latestOf ds first).deliveryPublicationDatetime) ∧
      (∀ x ∈ l2, x.deliveryPublicationDatetime ≤
        (latestOf ds first).deliveryPublicationDatetime) := by
  induction ds with
  | nil =>
      intro first
      exact ⟨[], [], rfl, by simp, by simp⟩
  | cons d ds ih =>
      intro first
      rw [latestOf_cons]
      by_cases hlt : first.deliveryPublicationDatetime < d.deliveryPublicationDatetime
      · rw [if_pos hlt]
        obtain ⟨l1, l2, heq, h1, h2⟩ := ih d
        refine ⟨first :: l1, l2, ?_, ?_, h2⟩
        · rw [List.cons_append, ← heq]
        · intro x hx
          rcases List.mem_cons.mp hx with rfl | hx1
          · calc x.deliveryPublicationDatetime
                < d.deliveryPublicationDatetime := hlt
              _ ≤ (latestOf ds d).deliveryPublicationDatetime :=
                  latestOf_le ds d d (List.mem_cons_self _ _)
          · exact h1 x hx1
      · rw [if_neg hlt]
        obtain ⟨l1, l2, heq, h1, h2⟩ := ih first
        cases l1 with
        | nil =>
            simp only [List.nil_append] at heq
            obtain ⟨hr, hl2⟩ := List.cons.inj heq
            refine ⟨[], d :: ds, by rw [List.nil_append, ← hr], by simp, ?_⟩
            intro x hx
            rcases List.mem_cons.mp hx with rfl | hx1
            · rw [← hr]; omega
            · rw [hl2] at hx1
              exact h2 x hx1
        | cons y l1 =>
            rw [List.cons_append] at heq
            obtain ⟨hy, hds⟩ := List.cons.inj heq
            refine ⟨first :: d :: l1, l2, ?_, ?_, h2⟩
            · rw [List.cons_append, List.cons_append, ← hds]
            · intro x hx
              have hfirstlt : first.deliveryPublicationDatetime <
                  (latestOf ds first).deliveryPublicationDatetime := by
                apply h1
                rw [← hy]
                exact List.mem_cons_self _ _
              rcases List.mem_cons.mp hx with rfl | hx1
              · exact hfirstlt
              · rcases List.mem_cons.mp hx1 with rfl | hx2
                · omega
                · exact h1 x (List.mem_cons_of_mem _ hx2)

/-! Lemmas about the progress-reader counter. -/

theorem cumFrom_length (ns : List Nat) :
    ∀ cur, (cumFrom cur ns).length = ns.length := by
  induction ns with
  | nil => intro cur; rfl
  | cons n ns ih => intro cur; simp [cumFrom, ih]

theorem cumFrom_getElem? (ns : List Nat) :
    ∀ cur i, i < ns.length →
      (cumFrom cur ns)[i]? = some (cur + ((ns.take (i + 1)).sum : Int)) := by
  induction ns with
  | nil => intro cur i h; simp at h
  | cons n ns ih =>
      intro cur i h
      cases i with
      | zero => simp [cumFrom]
      | succ j =>
          have hj : j < ns.length := by simpa using h
          show (cumFrom cur (n :: ns))[j + 1]? = _
          rw [cumFrom]
          rw [List.getElem?_cons_succ, ih (cur + (n : Int)) j hj, List.take_succ_cons,
            List.sum_cons]
          congr 1
          push_cast
          ring

theorem cumFrom_ge_start (ns : List Nat) :
    ∀ cur x, x ∈ cumFrom cur ns → cur ≤ x := by
  induction ns with
  | nil => intro cur x hx; simp [cumFrom] at hx
  | cons n ns ih =>
      intro cur x hx
      rw [cumFrom] at hx
      rcases List.mem_cons.mp hx with rfl | hx1
      · omega
      · have := ih (cur + (n : Int)) x hx1
        omega

theorem cumFrom_pairwise (ns : List Nat) :
    ∀ cur, (cumFrom cur ns).Pairwise (· ≤ ·) := by
  induction ns with
  | nil => intro cur; simp [cumFrom]
  | cons n ns ih =>
      intro cur
      rw [cumFrom]
      refine List.pairwise_cons.mpr ⟨?_, ih _⟩
      intro x hx
      exact cumFrom_ge_start ns (cur + (n : Int)) x hx

theorem cumFrom_getLast? (ns : List Nat) :
    ∀ cur, ns ≠ [] → (cumFrom cur ns).getLast? = some (cur + (ns.sum : Int)) := by
  induction ns with
  | nil => intro cur h; exact absurd rfl h
  | cons n ns ih =>
      intro cur _
      cases ns with
      | nil => simp [cumFrom]
      | cons m ms =>
          rw [cumFrom, cumFrom, List.getLast?_cons_cons, ← cumFrom, ih _ (by simp)]
          congr 1
          push_cast [List.map_cons, List.sum_cons]
          ring

/-! Claim theorems. -/

/-- C1: the claim says a resource attempt whose HTTP response has status
401 yields an Authentication error and the orchestrator then clears the
cached token before the next attempt.  The code does neither: evaluated
at the failing input (a `GetProduct` / `ListProducts` attempt whose
response is 401 with body "unauthorized"), the attempt returns the
generic `unexpected status` error, not an `AuthError`; that error fails
the orchestrator's `err.(*AuthError)` test; and a full default-config
retry run (`MaxRetries = 3`) over that error leaves the cached token and
expiry untouched.  By contrast the clearing branch does fire for a bare
`AuthError` value with status 401 — but no resource 401 ever produces
one. -/
theorem epo_c1_resource_401_not_auth_error :
    getProductAttempt 7 { statusCode := 401, body := "unauthorized", json200 := none } =
      .error (.generic "unexpected status 401: unauthorized")
  ∧ listProductsAttempt { statusCode := 401, body := "unauthorized", json200 := none } =
      .error (.generic "unexpected status 401: unauthorized")
  ∧ isAuthError401 (.generic "unexpected status 401: unauthorized") = false
  ∧ (retryableRequest 3 1
        (statelessFn fun _ => some (.generic "unexpected status 401: unauthorized"))
        { token := "cached", tokenExpiry := 999999 }).final =
      { token := "cached", tokenExpiry := 999999 }
  ∧ (retryableRequest 3 1 (statelessFn fun _ => some (.auth 401 "unauthorized"))
        { token := "cached", tokenExpiry := 999999 }).final = clearedToken := by
  refine ⟨rfl, rfl, rfl, ?_, ?_⟩ <;> decide

/-- C2: `retryableRequest` runs the wrapped operation at most
`MaxRetries + 1` times; it returns immediately on the first success and
the sleeps are exactly the ones between consecutive attempts
(`sleeps.length = calls - 1`, so no sleep follows a success), each of
`RetryDelay * (attemptIndex + 1)` seconds (linear back-off); a first
success at attempt `k` stops the loop after `k + 1` calls with a `nil`
error; any failing attempt with retries remaining is followed by another
attempt whatever the error kind; and when every attempt fails the loop
performs all `MaxRetries + 1` calls and returns the last error wrapped
with the annotation `failed after <MaxRetries> retries`. -/
theorem epo_c2_retry_loop :
    (∀ (mr : Nat) (d : Int) (fn : Nat → TokenState → Option GoErr × TokenState)
        (st : TokenState), (retryableRequest mr d fn st).calls ≤ mr + 1)
  ∧ (∀ (mr : Nat) (d : Int) (fn : Nat → TokenState → Option GoErr × TokenState)
        (st : TokenState),
        (retryableRequest mr d fn st).sleeps =
          (List.range ((retryableRequest mr d fn st).calls - 1)).map
            (fun i : Nat => d * ((i : Int) + 1)))
  ∧ (∀ (mr : Nat) (d : Int) (seq : Nat → Option GoErr) (st : TokenState) (k : Nat),
        k ≤ mr → seq k = none → (∀ i, i < k → seq i ≠ none) →
        (retryableRequest mr d (statelessFn seq) st).result = none ∧
        (retryableRequest mr d (statelessFn seq) st).calls = k + 1)
  ∧ (∀ (mr : Nat) (d : Int) (seq : Nat → Option GoErr) (st : TokenState),
        (∀ i, i ≤ mr → seq i ≠ none) →
        ∃ e, seq mr = some e ∧
          (retryableRequest mr d (statelessFn seq) st).result =
            some (.wrap (failedAfterMsg mr) e) ∧
          (retryableRequest mr d (statelessFn seq) st).calls = mr + 1)
  ∧ (∀ (mr : Nat) (d : Int) (seq : Nat → Option GoErr) (st : TokenState) (n : Nat),
        n ≤ mr → (∀ i, i < n → seq i ≠ none) →
        n + 1 ≤ (retryableRequest mr d (statelessFn seq) st).calls) := by
  refine ⟨?_, ?_, ?_, ?_, ?_⟩
  · intro mr d fn st
    exact retryAux_calls_le mr d fn (mr + 1) 0 st
  · intro mr d fn st
    have h := retryAux_sleeps mr d fn (mr + 1) 0 st (by omega)
    rw [retryableRequest, h]
    apply List.map_congr_left
    intro i _
    push_cast
    ring
  · intro mr d seq st k hk hknone hfail
    obtain ⟨h1, h2⟩ := retryAux_first_success mr d seq (mr + 1) 0 st k
      (Nat.zero_le k) hk (by omega) hknone (fun i _ h2 => hfail i h2)
    refine ⟨h1, ?_⟩
    rw [retryableRequest, h2]
    omega
  · intro mr d seq st hfail
    exact retryAux_all_fail mr d seq (mr + 1) 0 st (by omega) (by omega)
      (fun i _ h2 => hfail i h2)
  · intro mr d seq st n hn hfail
    exact retryAux_min_calls mr d seq n (mr + 1) 0 st (by omega) (by omega)
      (fun i _ h2 => hfail i (by omega))

/-- Witness for C2 at `MaxRetries = 2`, `RetryDelay = 5`: a run whose
first two attempts fail with a generic error and succeed on the third, a
run in which every attempt fails with a not-found error, and a run whose
first attempt fails with a not-found error followed by generic transport
errors. -/
theorem epo_c2_retry_loop_witness :
    ((retryableRequest 2 5
        (statelessFn fun i => if i < 2 then some (.generic "boom") else none)
        { token := "t", tokenExpiry := 17 }).calls ≤ 2 + 1)
  ∧ ((retryableRequest 2 5
        (statelessFn fun i => if i < 2 then some (.generic "boom") else none)
        { token := "t", tokenExpiry := 17 }).sleeps =
      (List.range ((retryableRequest 2 5
        (statelessFn fun i => if i < 2 then some (.generic "boom") else none)
        { token := "t", tokenExpiry := 17 }).calls - 1)).map
          (fun i : Nat => 5 * ((i : Int) + 1)))
  ∧ ((retryableRequest 2 5
        (statelessFn fun i => if i < 2 then some (.generic "boom") else none)
        { token := "t", tokenExpiry := 17 }).result = none ∧
      (retryableRequest 2 5
        (statelessFn fun i => if i < 2 then some (.generic "boom") else none)
        { token := "t", tokenExpiry := 17 }).calls = 2 + 1)
  ∧ (∃ e, (fun i : Nat => some (GoErr.notFound "file" (toString i))) 2 = some e ∧
      (retryableRequest 2 5
        (statelessFn fun i => some (.notFound "file" (toString i)))
        { token := "t", tokenExpiry := 17 }).result =
          some (.wrap (failedAfterMsg 2) e) ∧
      (retryableRequest 2 5
        (statelessFn fun i => some (.notFound "file" (toString i)))
        { token := "t", tokenExpiry := 17 }).calls = 2 + 1)
  ∧ (1 + 1 ≤ (retryableRequest 2 5
        (statelessFn fun i => if i = 0 then some (.notFound "product" "9")
          else some (.generic "transport"))
        { token := "t", tokenExpiry := 17 }).calls) := by
  refine ⟨?_, ?_, ?_, ?_, ?_⟩
  · exact epo_c2_retry_loop.1 2 5 _ _
  · exact epo_c2_retry_loop.2.1 2 5 _ _
  · exact epo_c2_retry_loop.2.2.1 2 5 _ _ 2 (by omega) (by simp)
      (fun i hi => by simp [hi])
  · exact epo_c2_retry_loop.2.2.2.1 2 5
      (fun i => some (.notFound "file" (toString i)))
      { token := "t", tokenExpiry := 17 } (fun i _ => by simp)
  · exact epo_c2_retry_loop.2.2.2.2 2 5
      (fun i => if i = 0 then some (.notFound "product" "9")
        else some (.generic "transport"))
      { token := "t", tokenExpiry := 17 } 1 (by omega)
      (fun i hi => by simp only []; split <;> simp)

/-- C3 counterexample: with credentials configured and an empty cached
token, a 200 authentication response whose decoded payload carries an
empty access-token field makes `ensureValidToken` return success after
exactly one authentication call — yet the held token is empty, violating
the claimed validity invariant on successful return. -/
theorem epo_c3_invariant_counterexample :
    ensureValidToken { DefaultConfig with username := "u", password := "p" } 1000
        { token := "", tokenExpiry := 0 }
        (.httpResp 200 "payload-with-empty-access-token-field"
          (.ok { accessToken := "" })) =
      ((.ok (), { token := "", tokenExpiry := 4600 }), 1)
  ∧ ¬ tokenValidInv 1000 { token := "", tokenExpiry := 4600 } := by
  refine ⟨?_, ?_⟩ <;> decide

/-- C3 (amended): with credentials configured, `ensureValidToken` makes
no authentication call when the stored token is non-empty and `now` plus
the 5-minute refresh buffer is strictly before the stored expiry; when
the token is empty or within the refresh buffer of expiry it makes
exactly one authentication call, delegating to `authenticate`; and when
that call's exchange is a 200 response whose decoded payload carries a
NON-EMPTY access token, the successful return leaves a held token
satisfying the validity invariant. -/
theorem epo_c3_token_freshness :
    ∀ (cfg : Config) (now : Int) (st : TokenState) (exchange : AuthExchange),
      cfg.username ≠ "" → cfg.password ≠ "" →
      (tokenValidInv now st →
        ensureValidToken cfg now st exchange = ((.ok (), st), 0))
    ∧ (¬ tokenValidInv now st →
        (ensureValidToken cfg now st exchange).2 = 1 ∧
        (ensureValidToken cfg now st exchange).1 = authenticate now st exchange)
    ∧ (∀ body tr, ¬ tokenValidInv now st →
        exchange = .httpResp 200 body (.ok tr) → tr.accessToken ≠ "" →
        ensureValidToken cfg now st exchange =
          ((.ok (), { token := tr.accessToken, tokenExpiry := now + tokenTTL }), 1) ∧
        tokenValidInv now { token := tr.accessToken, tokenExpiry := now + tokenTTL }) := by
  intro cfg now st exchange hu hp
  refine ⟨?_, ?_, ?_⟩
  · intro hvalid
    simp [ensureValidToken, hu, hp, hvalid]
  · intro hinvalid
    constructor <;> simp [ensureValidToken, hu, hp, hinvalid]
  · intro body tr hinvalid hex htok
    subst hex
    constructor
    · simp [ensureValidToken, hu, hp, hinvalid, authenticate]
    · refine ⟨htok, ?_⟩
      show now + tokenRefreshBuffer < now + tokenTTL
      simp only [tokenRefreshBuffer, tokenTTL]
      omega

/-- Witness for C3 (amended): at `now = 500` a token expiring at 1000 is
fresh (no authentication call); an empty token triggers exactly one
authentication call, and a 200 exchange carrying access token "tok"
leaves a valid held token. -/
theorem epo_c3_token_freshness_witness :
    ensureValidToken { DefaultConfig with username := "u", password := "p" } 500
        { token := "t", tokenExpiry := 1000 } (.transportErr "unused") =
      ((.ok (), { token := "t", tokenExpiry := 1000 }), 0)
  ∧ (ensureValidToken { DefaultConfig with username := "u", password := "p" } 500
        { token := "", tokenExpiry := 0 } (.httpResp 200 "body" (.ok { accessToken := "tok" })) =
      ((.ok (), { token := "tok", tokenExpiry := 500 + tokenTTL }), 1) ∧
      tokenValidInv 500 { token := "tok", tokenExpiry := 500 + tokenTTL }) := by
  refine ⟨?_, ?_⟩
  · exact (epo_c3_token_freshness
      { DefaultConfig with username := "u", password := "p" } 500
      { token := "t", tokenExpiry := 1000 } (.transportErr "unused")
      (by decide) (by decide)).1 (by decide)
  · exact (epo_c3_token_freshness
      { DefaultConfig with username := "u", password := "p" } 500
      { token := "", tokenExpiry := 0 }
      (.httpResp 200 "body" (.ok { accessToken := "tok" }))
      (by decide) (by decide)).2.2 "body" { accessToken := "tok" }
      (by decide) rfl (by decide)

/-- C4: with an empty credential pair, `ensureValidToken` is a no-op
returning success with no authentication call, `authRequestEditor`
performs no authentication call and returns the request with only the
configured `User-Agent` header set — in particular the `Authorization`
header is exactly what the incoming request carried (absent for a fresh
request). -/
theorem epo_c4_no_credentials :
    ∀ (cfg : Config) (now : Int) (st : TokenState) (exchange : AuthExchange)
      (req : GoRequest),
      cfg.username = "" → cfg.password = "" →
      ensureValidToken cfg now st exchange = ((.ok (), st), 0)
    ∧ authRequestEditor cfg now st exchange req =
        ((.ok { req with userAgent := some cfg.userAgent }, st), 0)
    ∧ ({ req with userAgent := some cfg.userAgent } : GoRequest).authorization =
        req.authorization := by
  intro cfg now st exchange req hu hp
  refine ⟨?_, ?_, rfl⟩
  · simp [ensureValidToken, hu]
  · simp [authRequestEditor, hu]

/-- Witness for C4: the default configuration (empty credentials) at a
fresh request without an `Authorization` header. -/
theorem epo_c4_no_credentials_witness :
    ensureValidToken DefaultConfig 100 { token := "", tokenExpiry := 0 }
        (.transportErr "unused") =
      ((.ok (), { token := "", tokenExpiry := 0 }), 0)
  ∧ authRequestEditor DefaultConfig 100 { token := "", tokenExpiry := 0 }
        (.transportErr "unused") { authorization := none, userAgent := none } =
      ((.ok { authorization := none, userAgent := some "PatentDev/BDDS/1.0" },
        { token := "", tokenExpiry := 0 }), 0)
  ∧ ({ ({ authorization := none, userAgent := none } : GoRequest) with
        userAgent := some DefaultConfig.userAgent } : GoRequest).authorization =
      ({ authorization := none, userAgent := none } : GoRequest).authorization := by
  have h := epo_c4_no_credentials DefaultConfig 100 { token := "", tokenExpiry := 0 }
    (.transportErr "unused") { authorization := none, userAgent := none } rfl rfl
  exact ⟨h.1, h.2.1, h.2.2⟩

/-- C5: `authenticate` on a 200 response with a decodable payload stores
the payload's access token and sets expiry to `now` plus exactly one
hour, regardless of the body; on any non-200 response it returns an
`AuthError` carrying the status code and raw body with the state
unchanged; on a transport failure or a malformed 200 body it fails with
the state unchanged. -/
theorem epo_c5_authenticate :
    ∀ (now : Int) (st : TokenState),
      (∀ body tr, authenticate now st (.httpResp 200 body (.ok tr)) =
        (.ok (), { token := tr.accessToken, tokenExpiry := now + tokenTTL }))
    ∧ (∀ statusCode body parsed, statusCode ≠ 200 →
        authenticate now st (.httpResp statusCode body parsed) =
          (.error (.auth statusCode body), st))
    ∧ (∀ msg, authenticate now st (.transportErr msg) =
        (.error (.wrap "auth request failed" (.generic msg)), st))
    ∧ (∀ body msg, authenticate now st (.httpResp 200 body (.error msg)) =
        (.error (.wrap "failed to parse token response" (.generic msg)), st)) := by
  intro now st
  refine ⟨?_, ?_, ?_, ?_⟩
  · intro body tr
    simp [authenticate]
  · intro statusCode body parsed h
    simp [authenticate, h]
  · intro msg
    simp [authenticate]
  · intro body msg
    simp [authenticate]

/-- Witness for C5: a 200 exchange with token "newtok" at `now = 100`,
a 403 rejection with body "denied", a transport failure, and a malformed
200 body, all from the same prior state. -/
theorem epo_c5_authenticate_witness :
    authenticate 100 { token := "old", tokenExpiry := 50 }
        (.httpResp 200 "rawbody" (.ok { accessToken := "newtok" })) =
      (.ok (), { token := "newtok", tokenExpiry := 100 + tokenTTL })
  ∧ authenticate 100 { token := "old", tokenExpiry := 50 }
        (.httpResp 403 "denied" (.error "unused")) =
      (.error (.auth 403 "denied"), { token := "old", tokenExpiry := 50 })
  ∧ authenticate 100 { token := "old", tokenExpiry := 50 } (.transportErr "dns") =
      (.error (.wrap "auth request failed" (.generic "dns")),
        { token := "old", tokenExpiry := 50 })
  ∧ authenticate 100 { token := "old", tokenExpiry := 50 }
        (.httpResp 200 "not-json" (.error "invalid character")) =
      (.error (.wrap "failed to parse token response" (.generic "invalid character")),
        { token := "old", tokenExpiry := 50 }) := by
  have h := epo_c5_authenticate 100 { token := "old", tokenExpiry := 50 }
  exact ⟨h.1 "rawbody" { accessToken := "newtok" },
    h.2.1 403 "denied" (.error "unused") (by decide),
    h.2.2.1 "dns",
    h.2.2.2 "not-json" "invalid character"⟩

/-- C6: a `GetProduct` attempt whose response is 404 returns a Not-Found
error carrying resource "product" and the stringified product id; any
other non-2xx status yields the generic error carrying status and body;
and a 200 response whose decoded payload is empty/missing is itself an
error. -/
theorem epo_c6_get_product_mapping :
    ∀ (productID : Int) (resp : GenProductResponse),
      (resp.statusCode = 404 →
        getProductAttempt productID resp =
          .error (.notFound "product" (toString productID)))
    ∧ (¬ (200 ≤ resp.statusCode ∧ resp.statusCode < 300) → resp.statusCode ≠ 404 →
        getProductAttempt productID resp =
          .error (.generic (unexpectedStatusMsg resp.statusCode resp.body)))
    ∧ (resp.statusCode = 200 → resp.json200 = none →
        getProductAttempt productID resp = .error (.generic "empty response body")) := by
  intro productID resp
  refine ⟨?_, ?_, ?_⟩
  · intro h404
    simp [getProductAttempt, h404]
  · intro hnon2xx hne404
    have h200 : ¬ resp.statusCode = 200 := by omega
    simp [getProductAttempt, hne404, h200]
  · intro h200 hjson
    simp [getProductAttempt, h200, hjson]

/-- Witness for C6 at product id 999: a 404 response, a 500 response
with body "boom", and a 200 response with missing payload. -/
theorem epo_c6_get_product_mapping_witness :
    getProductAttempt 999 { statusCode := 404, body := "not here", json200 := none } =
      .error (.notFound "product" "999")
  ∧ getProductAttempt 999 { statusCode := 500, body := "boom", json200 := none } =
      .error (.generic (unexpectedStatusMsg 500 "boom"))
  ∧ getProductAttempt 999 { statusCode := 200, body := "", json200 := none } =
      .error (.generic "empty response body") := by
  refine ⟨?_, ?_, ?_⟩
  · exact (epo_c6_get_product_mapping 999
      { statusCode := 404, body := "not here", json200 := none }).1 rfl
  · exact (epo_c6_get_product_mapping 999
      { statusCode := 500, body := "boom", json200 := none }).2.1
      (by decide) (by decide)
  · exact (epo_c6_get_product_mapping 999
      { statusCode := 200, body := "", json200 := none }).2.2 rfl rfl

/-- C7: for a product with a non-empty delivery list, `GetLatestDelivery`
returns a delivery occurring in the list such that every delivery before
it has a strictly smaller publication timestamp (so the first of the
maxima is retained on ties) and every delivery of the product has a
publication timestamp no larger than its own; for a product with zero
deliveries it returns a Not-Found error. -/
theorem epo_c7_latest_delivery :
    ∀ (productID : Int) (product : ProductWithDeliveries),
      (product.deliveries = [] →
        getLatestDelivery productID product =
          .error (.notFound "delivery"
            ("product " ++ toString productID ++ " has no deliveries")))
    ∧ (product.deliveries ≠ [] →
        ∃ d l1 l2, getLatestDelivery productID product = .ok d ∧
          product.deliveries = l1 ++ d :: l2 ∧
          (∀ x ∈ l1, x.deliveryPublicationDatetime < d.deliveryPublicationDatetime) ∧
          (∀ x ∈ product.deliveries,
            x.deliveryPublicationDatetime ≤ d.deliveryPublicationDatetime)) := by
  intro productID product
  refine ⟨?_, ?_⟩
  · intro h
    simp [getLatestDelivery, h]
  · intro hne
    rcases hds : product.deliveries with _ | ⟨first, rest⟩
    · exact absurd hds hne
    · obtain ⟨l1, l2, heq, h1, h2⟩ := latestOf_decomp rest first
      refine ⟨latestOf rest first, l1, l2, ?_, heq, h1, ?_⟩
      · simp [getLatestDelivery, hds]
      · intro x hx
        exact latestOf_le rest first x hx

/-- Witness for C7: a product with no deliveries, and a product whose
deliveries have publication timestamps 100, 200, 200 (maximum attained
twice). -/
theorem epo_c7_latest_delivery_witness :
    getLatestDelivery 5 productNoDeliveries =
      .error (.notFound "delivery" "product 5 has no deliveries")
  ∧ (∃ d l1 l2, getLatestDelivery 3 productDupMax = .ok d ∧
      productDupMax.deliveries = l1 ++ d :: l2 ∧
      (∀ x ∈ l1, x.deliveryPublicationDatetime < d.deliveryPublicationDatetime) ∧
      (∀ x ∈ productDupMax.deliveries,
        x.deliveryPublicationDatetime ≤ d.deliveryPublicationDatetime)) := by
  refine ⟨?_, ?_⟩
  · exact (epo_c7_latest_delivery 5 productNoDeliveries).1 rfl
  · exact (epo_c7_latest_delivery 3 productDupMax).2 (by simp [productDupMax])

/-- C8: `GetProductByName`, over the full listing, returns a product
whose name matches the query under `strings.EqualFold` (case-insensitive
exact match) whenever one exists, and returns a Not-Found error carrying
the queried name when no product name matches — in particular for a
partial-name query. -/
theorem epo_c8_find_by_name :
    ∀ (products : List Product) (name : String),
      ((∀ p ∈ products, strEqualFold p.name name = false) →
        getProductByName products name = .error (.notFound "product" name))
    ∧ (∀ p, getProductByName products name = .ok p →
        p ∈ products ∧ strEqualFold p.name name = true)
    ∧ ((∃ p, p ∈ products ∧ strEqualFold p.name name = true) →
        ∃ p, getProductByName products name = .ok p ∧ p ∈ products ∧
          strEqualFold p.name name = true) := by
  intro products name
  refine ⟨?_, ?_, ?_⟩
  · intro hnone
    have hfind : products.find? (fun p => strEqualFold p.name name) = none :=
      List.find?_eq_none.mpr (by intro x hx; simp [hnone x hx])
    simp [getProductByName, hfind]
  · intro p hp
    unfold getProductByName at hp
    rcases hfind : products.find? (fun p => strEqualFold p.name name) with _ | q
    · rw [hfind] at hp
      simp at hp
    · rw [hfind] at hp
      simp only [Except.ok.injEq] at hp
      subst hp
      have hpq := List.find?_some hfind
      exact ⟨List.mem_of_find?_eq_some hfind, hpq⟩
  · intro hex
    rcases hfind : products.find? (fun p => strEqualFold p.name name) with _ | q
    · exfalso
      obtain ⟨p, hmem, hfold⟩ := hex
      exact (List.find?_eq_none.mp hfind p hmem) (by simp [hfold])
    · have hpq := List.find?_some hfind
      exact ⟨q, by simp [getProductByName, hfind],
        List.mem_of_find?_eq_some hfind, hpq⟩

/-- Witness for C8 over a listing containing "EP DocDB front file": the
query "ep docdb front file" (case-folded exact match) finds a product,
and the partial query "EP DocDB" yields the Not-Found error carrying the
queried name. -/
theorem epo_c8_find_by_name_witness :
    (∃ p, getProductByName listingEP "ep docdb front file" = .ok p ∧
      p ∈ listingEP ∧ strEqualFold p.name "ep docdb front file" = true)
  ∧ getProductByName listingEP "EP DocDB" =
      .error (.notFound "product" "EP DocDB") := by
  refine ⟨?_, ?_⟩
  · exact (epo_c8_find_by_name listingEP "ep docdb front file").2.2
      ⟨{ id := 3, name := "EP DocDB front file", description := "biblio" },
        by simp [listingEP], by decide⟩
  · exact (epo_c8_find_by_name listingEP "EP DocDB").1 (by decide)

/-- C9: with a progress callback supplied, every read of the wrapped
stream produces exactly one callback invocation carrying the cumulative
bytes read so far (the sum of the first `i + 1` chunk sizes at the i-th
read) and the advertised total; the cumulative counter is monotonically
non-decreasing across invocations; and for a fully-read body of `N`
known bytes the callback fires at least once with the final invocation
reporting `(N, N)`. -/
theorem epo_c9_progress :
    ∀ (total : Int) (chunks : List Nat),
      (progressCalls total chunks).length = chunks.length
    ∧ (∀ i, i < chunks.length →
        (progressCalls total chunks)[i]? =
          some ((((chunks.take (i + 1)).sum : Nat) : Int), total))
    ∧ (progressCalls total chunks).Pairwise (fun a b => a.1 ≤ b.1)
    ∧ (chunks ≠ [] →
        (progressCalls total chunks).getLast? =
          some (((chunks.sum : Nat) : Int), total))
    ∧ (∀ N : Int, chunks ≠ [] → ((chunks.sum : Nat) : Int) = N →
        (progressCalls N chunks).getLast? = some (N, N)) := by
  intro total chunks
  have hlast : chunks ≠ [] →
      (progressCalls total chunks).getLast? =
        some (((chunks.sum : Nat) : Int), total) := by
    intro hne
    rw [progressCalls, List.getLast?_map, cumFrom_getLast? chunks 0 hne]
    simp
  refine ⟨?_, ?_, ?_, hlast, ?_⟩
  · rw [progressCalls, List.length_map, cumFrom_length]
  · intro i hi
    rw [progressCalls, List.getElem?_map, cumFrom_getElem? chunks 0 i hi]
    simp
  · rw [progressCalls]
    exact List.pairwise_map.mpr (cumFrom_pairwise chunks 0)
  · intro N hne hsum
    have h := hlast  -- reuse the shape at this total
    rw [progressCalls, List.getLast?_map, cumFrom_getLast? chunks 0 hne, hsum]
    simp [hsum]

/-- Witness for C9 with a 17-byte body read in chunks of 5, 7, 5 bytes
and an advertised total of 17: per-read cumulative values, monotonicity,
and a final invocation of `(17, 17)`. -/
theorem epo_c9_progress_witness :
    ((progressCalls 17 [5, 7, 5])[1]? =
      some (((([5, 7, 5].take 2).sum : Nat) : Int), 17))
  ∧ (progressCalls 17 [5, 7, 5]).Pairwise (fun a b => a.1 ≤ b.1)
  ∧ (progressCalls 17 [5, 7, 5]).getLast? = some (17, 17) := by
  refine ⟨?_, ?_, ?_⟩
  · exact (epo_c9_progress 17 [5, 7, 5]).2.1 1 (by decide)
  · exact (epo_c9_progress 17 [5, 7, 5]).2.2.1
  · exact (epo_c9_progress 17 [5, 7, 5]).2.2.2.2 17 (by decide) (by decide)

/-- C10: `NewClient` replaces a nil configuration by the full default
configuration, replaces each zero-valued field (empty base URL, empty
user agent, zero max retries, zero retry delay, zero timeout) by its
documented default while preserving non-zero values and the credential
fields; consequently the effective configuration never has zero max
retries, zero retry delay, or zero timeout. -/
theorem epo_c10_new_client_defaults :
    newClientConfig none = DefaultConfig
  ∧ (∀ c : Config,
      (newClientConfig (some c)).username = c.username
    ∧ (newClientConfig (some c)).password = c.password
    ∧ (c.baseURL = "" →
        (newClientConfig (some c)).baseURL = "https://publication-bdds.apps.epo.org")
    ∧ (c.baseURL ≠ "" → (newClientConfig (some c)).baseURL = c.baseURL)
    ∧ (c.userAgent = "" → (newClientConfig (some c)).userAgent = "PatentDev/BDDS/1.0")
    ∧ (c.userAgent ≠ "" → (newClientConfig (some c)).userAgent = c.userAgent)
    ∧ (c.maxRetries = 0 → (newClientConfig (some c)).maxRetries = 3)
    ∧ (c.maxRetries ≠ 0 → (newClientConfig (some c)).maxRetries = c.maxRetries)
    ∧ (c.retryDelay = 0 → (newClientConfig (some c)).retryDelay = 1)
    ∧ (c.retryDelay ≠ 0 → (newClientConfig (some c)).retryDelay = c.retryDelay)
    ∧ (c.timeout = 0 → (newClientConfig (some c)).timeout = 30)
    ∧ (c.timeout ≠ 0 → (newClientConfig (some c)).timeout = c.timeout)
    ∧ (newClientConfig (some c)).maxRetries ≠ 0
    ∧ (newClientConfig (some c)).retryDelay ≠ 0
    ∧ (newClientConfig (some c)).timeout ≠ 0) := by
  refine ⟨rfl, ?_⟩
  intro c
  refine ⟨rfl, rfl, ?_, ?_, ?_, ?_, ?_, ?_, ?_, ?_, ?_, ?_, ?_, ?_, ?_⟩
  · intro h; simp [newClientConfig, DefaultConfig, h]
  · intro h; simp [newClientConfig, h]
  · intro h; simp [newClientConfig, DefaultConfig, h]
  · intro h; simp [newClientConfig, h]
  · intro h; simp [newClientConfig, DefaultConfig, h]
  · intro h; simp [newClientConfig, h]
  · intro h; simp [newClientConfig, DefaultConfig, h]
  · intro h; simp [newClientConfig, h]
  · intro h; simp [newClientConfig, DefaultConfig, h]
  · intro h; simp [newClientConfig, h]
  · by_cases h : c.maxRetries = 0 <;> simp [newClientConfig, DefaultConfig, h]
  · by_cases h : c.retryDelay = 0 <;> simp [newClientConfig, DefaultConfig, h]
  · by_cases h : c.timeout = 0 <;> simp [newClientConfig, DefaultConfig, h]

/-- Witness for C10: a configuration with empty base URL and user agent,
zero max retries, but non-zero retry delay and timeout, gets exactly the
documented defaults for the zero fields and keeps the rest. -/
theorem epo_c10_new_client_defaults_witness :
    (newClientConfig (some cfgZeroFields)).baseURL =
      "https://publication-bdds.apps.epo.org"
  ∧ (newClientConfig (some cfgZeroFields)).userAgent = "PatentDev/BDDS/1.0"
  ∧ (newClientConfig (some cfgZeroFields)).maxRetries = 3
  ∧ (newClientConfig (some cfgZeroFields)).retryDelay = cfgZeroFields.retryDelay
  ∧ (newClientConfig (some cfgZeroFields)).timeout ≠ 0 := by
  have h := epo_c10_new_client_defaults.2 cfgZeroFields
  exact ⟨h.2.2.1 rfl, h.2.2.2.2.1 rfl, h.2.2.2.2.2.2.1 rfl,
    h.2.2.2.2.2.2.2.2.2.1 (by decide), h.2.2.2.2.2.2.2.2.2.2.2.2.2.2⟩

end EpoBdds
